import Mathlib

/-!
# The custom-call bridge of jax_linop (src/_jax_linop.cc)

A shallow embedding of the functions bit_cast, EncapsulateFunction, pycall and
Registrations, and the properties of the decode-and-dispatch step.

Conventions of the embedding.

* The pointer array passed as second argument of pycall is a list of slots.
  A slot records the pointer stored in the array and the 64-bit word found in
  memory at that pointer when pycall runs.
* Indexing the array outside the list is undefined behaviour in the source;
  the embedding makes it the error `Err.bad_access`.
* Values of type size_t and uint64_t are natural numbers reduced modulo 2 ^ 64.
* Python objects are identified by their address (the value of PyObject*).
* The callback and the memory it works on belong to the caller; they are
  parameters of pycall.
* The constructor py::array belongs to pybind11 and NumPy. It is embedded as
  those libraries define it; the constant NPY_MAXDIMS and the outcome of an
  allocation are parameters (structure NumPy).
* A Python call is recorded when pycall makes it. What the interpreter does
  with it (a state without the key, a callback that raises) is outside the
  source and is not represented: the callback is a function on the memory.
* The interpreter lock held during pycall (line 45) and the reference counts
  of the Python objects are not represented.
-/

namespace detail_pymodule_jax

/-! ## The marshaling function pycall -/

/-- The numpy dtypes stored as values of the table tcdict. -/
inductive DType where
  | float32
  | float64
  | complex64
  | complex128
deriving DecidableEq, Repr

/-- The ways in which pycall stops before reaching its last statement. -/
inductive Err where
  /-- The exception std::out_of_range thrown by map::at. -/
  | out_of_range
  /-- The array of pointers was indexed at a position it does not have. -/
  | bad_access (i : Nat)
deriving DecidableEq, Repr

deriving instance DecidableEq for Except

/-- One element of the pointer array: the pointer, and the 64-bit word stored
at the address it points to. -/
structure Slot where
  ptr : Nat
  word : Nat
deriving DecidableEq, Repr, Inhabited

/-- Number of values of a 64-bit unsigned integer (size_t, uint64_t). -/
def SIZE_RANGE : Nat := 2 ^ 64

/-- Dereferencing a slot as uint64_t. -/
def as_uint64 (s : Slot) : Nat := s.word % SIZE_RANGE

/-- Dereferencing a slot as int64_t (two's complement). -/
def as_int64 (s : Slot) : Int :=
  if s.word % SIZE_RANGE < 2 ^ 63 then ((s.word % SIZE_RANGE : Nat) : Int)
  else ((s.word % SIZE_RANGE : Nat) : Int) - 2 ^ 64

/-- The conversion uint8_t(v) of a signed 64-bit value. -/
def to_uint8 (v : Int) : Nat := (v % 256).toNat

/-- The table tcdict of pycall (lines 47-51), keyed by uint8_t. -/
def tcdict : List (Nat × DType) :=
  [(3, DType.float32), (7, DType.float64), (67, DType.complex64), (71, DType.complex128)]

/-- The member function map::at on tcdict: throws when the key is absent. -/
def tcdict_at (key : Nat) : Except Err DType :=
  match tcdict.lookup key with
  | some dt => Except.ok dt
  | none => Except.error Err.out_of_range

/-- The expression tcdict.at(uint8_t(*reinterpret_cast<int64_t *>(p))) applied
to the slot holding p (lines 64 and 70). -/
def lookup_dtype (s : Slot) : Except Err DType := tcdict_at (to_uint8 (as_int64 s))

/-- The variable idx together with the record of the positions of the pointer
array indexed so far, oldest first. -/
structure Cursor where
  idx : Nat
  reads : List Nat
deriving DecidableEq, Repr

/-- The expression in[i]. -/
def load (inp : List Slot) (i : Nat) : Except Err Slot :=
  match inp[i]? with
  | some s => Except.ok s
  | none => Except.error (Err.bad_access i)

/-- The expression in[idx++]: index at idx, then increment the size_t idx. -/
def next (inp : List Slot) (c : Cursor) : Except Err (Slot × Cursor) :=
  match load inp c.idx with
  | Except.ok s => Except.ok (s, { idx := (c.idx + 1) % SIZE_RANGE, reads := c.reads ++ [c.idx] })
  | Except.error e => Except.error e

/-- The loops of lines 67-68 and 73-74, with n the number of iterations left
and acc the vector filled by push_back. -/
def read_shape (inp : List Slot) : Nat → Cursor → List Nat → Except Err (List Nat × Cursor)
  | 0, c, acc => Except.ok (acc, c)
  | n + 1, c, acc =>
    match next inp c with
    | Except.ok (s, c1) => read_shape inp n c1 (acc ++ [as_uint64 s])
    | Except.error e => Except.error e

/-- The local variables of pycall after line 74. -/
structure Decoded where
  state : Nat
  dtin : DType
  ndim_in : Nat
  shape_in : List Nat
  dtout : DType
  ndim_out : Nat
  shape_out : List Nat
  idx : Nat
  reads : List Nat
deriving DecidableEq, Repr

/-- Lines 58-74 of pycall: the state handle, then type, rank and shape of the
input, then type, rank and shape of the output. -/
def decode (inp : List Slot) : Except Err Decoded :=
  match load inp 2 with
  | Except.error e => Except.error e
  | Except.ok s2 =>
  match next inp { idx := 3, reads := [2] } with
  | Except.error e => Except.error e
  | Except.ok (t1, c1) =>
  match lookup_dtype t1 with
  | Except.error e => Except.error e
  | Except.ok dtin =>
  match next inp c1 with
  | Except.error e => Except.error e
  | Except.ok (r1, c2) =>
  match read_shape inp (as_uint64 r1) c2 [] with
  | Except.error e => Except.error e
  | Except.ok (shape_in, c3) =>
  match next inp c3 with
  | Except.error e => Except.error e
  | Except.ok (t2, c4) =>
  match lookup_dtype t2 with
  | Except.error e => Except.error e
  | Except.ok dtout =>
  match next inp c4 with
  | Except.error e => Except.error e
  | Except.ok (r2, c5) =>
  match read_shape inp (as_uint64 r2) c5 [] with
  | Except.error e => Except.error e
  | Except.ok (shape_out, c6) =>
    Except.ok
      { state := as_uint64 s2
        dtin := dtin
        ndim_in := as_uint64 r1
        shape_in := shape_in
        dtout := dtout
        ndim_out := as_uint64 r2
        shape_out := shape_out
        idx := c6.idx
        reads := c6.reads }

/-- The facts about the NumPy library in use that the source does not fix:
the constant NPY_MAXDIMS (32 before NumPy 2, 64 since) and the outcome of the
allocation requested while array number k is built (0 for pyin, 1 for pyout):
the address of the new block, or none when the allocator fails. -/
structure NumPy where
  MAXDIMS : Nat
  alloc : Nat → Option Nat

/-- The largest value of npy_intp, which is ssize_t. -/
def NPY_MAX_INTP : Int := 2 ^ 63 - 1

/-- The conversion of a size_t to ssize_t made when the vector shape_in or
shape_out becomes the ShapeContainer of py::array. -/
def to_ssize_t (n : Nat) : Int :=
  if n % SIZE_RANGE < 2 ^ 63 then ((n % SIZE_RANGE : Nat) : Int)
  else ((n % SIZE_RANGE : Nat) : Int) - 2 ^ 64

/-- The size in bytes of one element of a dtype. -/
def itemsize : DType → Nat
  | DType.float32 => 4
  | DType.float64 => 8
  | DType.complex64 => 8
  | DType.complex128 => 16

/-- The loop of PyArray_NewFromDescr over the dimensions, nbytes starting at
the element size: a dimension 0 is skipped, a negative one is refused
(negative dimensions are not allowed), and so is one that takes the byte count
beyond NPY_MAX_INTP (array is too big). -/
def check_dims : List Int → Int → Bool
  | [], _ => true
  | dim :: rest, nbytes =>
    if dim = 0 then check_dims rest nbytes
    else if dim < 0 then false
    else if NPY_MAX_INTP < nbytes * dim then false
    else check_dims rest (nbytes * dim)

/-- The product of the dimensions that are not 0: the number by which
check_dims multiplies the element size. -/
def nonzero_prod : List Int → Int
  | [] => 1
  | dim :: rest => if dim = 0 then nonzero_prod rest else dim * nonzero_prod rest

/-- A numpy array object as far as pycall determines it: element type,
dimensions, address of the first element and the two flags named in lines
81-86. -/
structure PyArray where
  dtype : DType
  shape : List Int
  data : Nat
  writeable : Bool
  owndata : Bool
deriving DecidableEq, Repr

/-- The argument base of py::array: the null handle, an array object with its
writeable flag, or an object of another type. -/
inductive Handle where
  | null
  | array (writeable : Bool)
  | object
deriving DecidableEq, Repr

/-- The constructor py::array(dt, shape, ptr, base) of pybind11, with fresh
the outcome of the allocation it may request. The result none means that no
array is delivered: NumPy refused the rank or the dimensions, or could not
allocate, and the constructor throws error_already_set. The rank is passed on
as (int) ndim, so NumPy sees the rank modulo 2 ^ 32 and that many dimensions;
it refuses a rank above MAXDIMS and the dimensions that check_dims refuses.
With a non-null ptr and a base the array is placed on the memory at ptr, which
it does not own, writeable unless the base is an array that is not; with a
non-null ptr and no base it is a copy in newly allocated memory; with a null
ptr NumPy allocates the memory, which the array owns. -/
def py_array (maxdims : Nat) (fresh : Option Nat) (dt : DType) (shape : List Nat) (ptr : Nat)
    (base : Handle) : Option PyArray :=
  let nd := shape.length % 2 ^ 32
  let dims := (shape.map to_ssize_t).take nd
  if nd ≤ maxdims ∧ check_dims dims (itemsize dt) = true then
    if ptr ≠ 0 then
      match base with
      | Handle.object =>
        some { dtype := dt, shape := dims, data := ptr, writeable := true, owndata := false }
      | Handle.array w =>
        some { dtype := dt, shape := dims, data := ptr, writeable := w, owndata := false }
      | Handle.null =>
        match fresh with
        | some a =>
          some { dtype := dt, shape := dims, data := a, writeable := true, owndata := true }
        | none => none
    else
      match fresh with
      | some a =>
        some { dtype := dt, shape := dims, data := a, writeable := true, owndata := true }
      | none => none
  else none

/-- The assignment a.attr("flags").attr("writeable") = b (line 82). -/
def set_writeable (a : PyArray) (b : Bool) : PyArray := { a with writeable := b }

/-- An argument of a Python call. -/
inductive PyArg where
  | array (a : PyArray)
  | object (handle : Nat)
deriving DecidableEq, Repr

/-- A call obj[key](args): the callee is the item key of the object obj. -/
structure Call where
  obj : Nat
  key : String
  args : List PyArg
deriving DecidableEq, Repr

/-- What one execution of pycall did. It raised during lines 58-74; or a
py::array constructor threw error_already_set at line 80 or 84, the pointer
array having been indexed at the positions reads; or it ran to the end, having
indexed the pointer array at the positions reads and made the Python calls
listed. In each case mem is the caller's memory afterwards. -/
inductive Run (Mem : Type) where
  | raised (e : Err) (mem : Mem)
  | array_failed (reads : List Nat) (mem : Mem)
  | returned (reads : List Nat) (calls : List Call) (mem : Mem)
deriving DecidableEq, Repr

/-- The function pycall(out, in). The object dummy of line 79 is a str, so the
base of both arrays is a handle to an object that is not an array. The Python
function reached by a call acts on the caller's memory through func. -/
def pycall {Mem : Type} (np : NumPy) (func : Call → Mem → Mem) (mem : Mem) (out : Nat)
    (inp : List Slot) : Run Mem :=
  match decode inp with
  | Except.error e => Run.raised e mem
  | Except.ok d =>
    match load inp 0 with
    | Except.error e => Run.raised e mem
    | Except.ok s0 =>
      match py_array np.MAXDIMS (np.alloc 0) d.dtin d.shape_in s0.ptr Handle.object with
      | none => Run.array_failed (d.reads ++ [0]) mem
      | some a =>
        let pyin := set_writeable a false
        match py_array np.MAXDIMS (np.alloc 1) d.dtout d.shape_out out Handle.object with
        | none => Run.array_failed (d.reads ++ [0]) mem
        | some pyout =>
          let c : Call :=
            { obj := d.state, key := "_func",
              args := [PyArg.array pyin, PyArg.array pyout, PyArg.object d.state] }
          Run.returned (d.reads ++ [0]) [c] (func c mem)

/-! ## Registration of the custom-call target -/

/-- Size in bytes of a data pointer and of a function pointer, the two types
between which bit_cast is instantiated. -/
def POINTER_SIZE : Nat := 8

/-- The object representation of a pointer: its bytes, least significant first. -/
def object_bytes (v : Nat) : List Nat :=
  (List.range POINTER_SIZE).map (fun k => v / 256 ^ k % 256)

/-- The pointer whose object representation is the given bytes. -/
def object_value (bs : List Nat) : Nat :=
  bs.foldr (fun b acc => b % 256 + 256 * acc) 0

/-- The library function memcpy(dst, src, n) on object representations. -/
def memcpy (dst src : List Nat) (n : Nat) : List Nat := src.take n ++ dst.drop n

/-- The function template bit_cast (lines 24-37) at To = void*: dst is declared
without initialiser, so it starts from the arbitrary value junk, and is then
overwritten by memcpy with the sizeof(To) bytes of src. -/
def bit_cast (junk src : Nat) : Nat :=
  object_value (memcpy (object_bytes junk) (object_bytes src) POINTER_SIZE)

/-- A Python capsule: the wrapped pointer and the capsule name. -/
structure Capsule where
  pointer : Nat
  name : String
deriving DecidableEq, Repr

/-- The function template EncapsulateFunction (lines 39-41). -/
def EncapsulateFunction (junk fn : Nat) : Capsule :=
  { pointer := bit_cast junk fn, name := "xla._CUSTOM_CALL_TARGET" }

/-- The assignment dict[key] = value on a Python dictionary kept as the list
of its items in insertion order. -/
def setitem (dict : List (String × Capsule)) (key : String) (value : Capsule) :
    List (String × Capsule) :=
  if dict.any (fun kv => kv.1 == key) then
    dict.map (fun kv => if kv.1 == key then (kv.1, value) else kv)
  else dict ++ [(key, value)]

/-- The function Registrations (lines 92-97); pycall_addr is the address of
the function pycall in the loaded module. -/
def Registrations (junk pycall_addr : Nat) : List (String × Capsule) :=
  let dict : List (String × Capsule) := []
  setitem dict "cpu_pycall" (EncapsulateFunction junk pycall_addr)

/-! ## The fixed layout, for stating the properties -/

/-- The slot at position i of the pointer array (a default slot outside it). -/
def slot (inp : List Slot) (i : Nat) : Slot := inp.getD i default

/-- The input rank as the fixed layout places it: the word of slot 4. -/
def rank_in (inp : List Slot) : Nat := as_uint64 (slot inp 4)

/-- The output rank as the fixed layout places it: the word of slot 6 + rank_in. -/
def rank_out (inp : List Slot) : Nat := as_uint64 (slot inp (6 + rank_in inp))

/-- The words of the n slots starting at position i. -/
def words (inp : List Slot) (i n : Nat) : List Nat := ((inp.drop i).take n).map as_uint64

/-- The pointer array fits in the address space and has all the slots its two
ranks announce. -/
abbrev well_formed (inp : List Slot) : Prop :=
  inp.length < SIZE_RANGE ∧ 7 + rank_in inp + rank_out inp ≤ inp.length

/-- The 64-bit type code held by a slot is known: reduced modulo 256 it is one
of the four keys of tcdict. -/
abbrev known_code (s : Slot) : Prop := as_int64 s % 256 ∈ ([3, 7, 67, 71] : List Int)

/-- Two pointer arrays have the same length and the same slot at every
position other than 1. -/
abbrev agree_off_opid (inp1 inp2 : List Slot) : Prop :=
  inp1.length = inp2.length ∧ ∀ i, i < inp1.length → i ≠ 1 → inp1[i]? = inp2[i]?

/-- The slot of a pointer p whose target holds the signed 64-bit value v. -/
def slot_of_int64 (p : Nat) (v : Int) : Slot := { ptr := p, word := (v % 2 ^ 64).toNat }

/-- The type code that tcdict maps to a dtype. -/
def type_code : DType → Nat
  | DType.float32 => 3
  | DType.float64 => 7
  | DType.complex64 => 67
  | DType.complex128 => 71

/-! ## Sample inputs -/

/-- A pointer array as the host runtime passes it for an operator taking a
2 x 3 array of float to a vector of 4 complex doubles: data pointer, operator
id, state handle, then type code, rank and shape of input and of output. -/
def sample_in : List Slot :=
  [⟨4096, 0⟩, ⟨64, 17⟩, ⟨72, 8192⟩, ⟨80, 3⟩, ⟨88, 2⟩, ⟨96, 2⟩, ⟨104, 3⟩, ⟨112, 71⟩, ⟨120, 1⟩,
    ⟨128, 4⟩]

/-- A pointer array for an operator between two rank-0 arrays of double. -/
def sample_scalar : List Slot :=
  [⟨4096, 0⟩, ⟨64, 18⟩, ⟨72, 8192⟩, ⟨80, 7⟩, ⟨88, 0⟩, ⟨96, 7⟩, ⟨104, 0⟩]

/-- A callback acting on a memory of words indexed by address: it stores the
number of elements of its first argument at the address of its second. -/
def sample_func (c : Call) (mem : Nat → Nat) : Nat → Nat :=
  match c.args with
  | [PyArg.array x, PyArg.array y, _] =>
    fun p => if p = y.data then x.shape.prod.toNat else mem p
  | _ => mem

/-- A pointer array for an operator between two rank-0 arrays whose type codes
are the words ci and co. -/
def scalar_input (ci co : Nat) : List Slot :=
  [⟨4096, 0⟩, ⟨64, 18⟩, ⟨72, 8192⟩, ⟨80, ci⟩, ⟨88, 0⟩, ⟨96, co⟩, ⟨104, 0⟩]

/-- The pointer array sample_in with another operator id at slot 1. -/
def sample_in_other_opid : List Slot := sample_in.set 1 ⟨200, 99⟩

/-- A memory holding the word 0 at every address. -/
def sample_mem : Nat → Nat := fun _ => 0

/-- A NumPy with at most 64 dimensions whose allocator returns the block at
65536 for pyin and the block at 131072 for pyout. -/
def sample_numpy : NumPy :=
  { MAXDIMS := 64, alloc := fun k => if k = 0 then some 65536 else some 131072 }

theorem load_ok (inp : List Slot) (i : Nat) (h : i < inp.length) :
    load inp i = Except.ok (slot inp i) := by
  simp [load, slot, List.getD, List.getElem?_eq_getElem h]

theorem load_bad (inp : List Slot) (i : Nat) (h : inp.length ≤ i) :
    load inp i = Except.error (Err.bad_access i) := by
  simp [load, List.getElem?_eq_none h]

theorem next_ok (inp : List Slot) (c : Cursor) (hlen : inp.length < SIZE_RANGE)
    (h : c.idx < inp.length) :
    next inp c = Except.ok (slot inp c.idx, { idx := c.idx + 1, reads := c.reads ++ [c.idx] }) := by
  have h1 : (c.idx + 1) % SIZE_RANGE = c.idx + 1 := Nat.mod_eq_of_lt (by omega)
  simp [next, load_ok inp c.idx h, h1]

theorem next_bad (inp : List Slot) (c : Cursor) (h : inp.length ≤ c.idx) :
    next inp c = Except.error (Err.bad_access c.idx) := by
  simp [next, load_bad inp c.idx h]

theorem read_shape_ok (inp : List Slot) (hlen : inp.length < SIZE_RANGE) :
    ∀ (n : Nat) (c : Cursor) (acc : List Nat), c.idx + n ≤ inp.length →
      read_shape inp n c acc =
        Except.ok (acc ++ ((inp.drop c.idx).take n).map as_uint64,
          { idx := c.idx + n, reads := c.reads ++ List.range' c.idx n }) := by
  intro n
  induction n with
  | zero => intro c acc _; simp [read_shape]
  | succ n ih =>
    intro c acc h
    have hc : c.idx < inp.length := by omega
    rw [read_shape, next_ok inp c hlen hc]
    simp only
    rw [ih _ _ (by simp; omega)]
    have hd : List.drop c.idx inp = slot inp c.idx :: List.drop (c.idx + 1) inp := by
      rw [List.drop_eq_getElem_cons hc]
      simp [slot, List.getD, List.getElem?_eq_getElem hc]
    simp [hd, List.take_succ_cons, List.range'_succ, Nat.add_assoc, Nat.add_comm 1 n]

theorem range_pieces (m n : Nat) :
    [2, 3, 4] ++ (List.range' 5 m ++ ([5 + m] ++ ([6 + m] ++ List.range' (7 + m) n)))
      = List.range' 2 (5 + m + n) := by
  have h1 : [2, 3, 4] = List.range' 2 3 := rfl
  have h2 : [5 + m] ++ ([6 + m] ++ List.range' (7 + m) n) = List.range' (5 + m) (2 + n) := by
    rw [Nat.add_comm 2 n, ← List.range'_append_1 (5 + m) 2 n]
    simp [List.range']
    constructor <;> omega
  rw [h1, h2, List.range'_append_1, List.range'_append_1]
  congr 1
  omega

theorem decode_ok (inp : List Slot) (a b : DType) (hwf : well_formed inp)
    (ha : lookup_dtype (slot inp 3) = Except.ok a)
    (hb : lookup_dtype (slot inp (5 + rank_in inp)) = Except.ok b) :
    decode inp = Except.ok
      { state := as_uint64 (slot inp 2)
        dtin := a
        ndim_in := rank_in inp
        shape_in := words inp 5 (rank_in inp)
        dtout := b
        ndim_out := rank_out inp
        shape_out := words inp (7 + rank_in inp) (rank_out inp)
        idx := 7 + rank_in inp + rank_out inp
        reads := List.range' 2 (5 + rank_in inp + rank_out inp) } := by
  obtain ⟨hlen, hw⟩ := hwf
  have s1 : next inp { idx := 3, reads := [2] }
      = Except.ok (slot inp 3, { idx := 4, reads := [2, 3] }) :=
    next_ok inp _ hlen (by show 3 < inp.length; omega)
  have s2 : next inp { idx := 4, reads := [2, 3] }
      = Except.ok (slot inp 4, { idx := 5, reads := [2, 3, 4] }) :=
    next_ok inp _ hlen (by show 4 < inp.length; omega)
  have s3 : read_shape inp (rank_in inp) { idx := 5, reads := [2, 3, 4] } []
      = Except.ok (words inp 5 (rank_in inp),
          ⟨5 + rank_in inp, [2, 3, 4] ++ List.range' 5 (rank_in inp)⟩) := by
    rw [read_shape_ok inp hlen _ _ _ (by show 5 + rank_in inp ≤ inp.length; omega)]
    simp [words]
  have s4 : next inp ⟨5 + rank_in inp, [2, 3, 4] ++ List.range' 5 (rank_in inp)⟩
      = Except.ok (slot inp (5 + rank_in inp),
          ⟨6 + rank_in inp, [2, 3, 4] ++ List.range' 5 (rank_in inp) ++ [5 + rank_in inp]⟩) := by
    rw [next_ok inp _ hlen (by show 5 + rank_in inp < inp.length; omega)]
    simp only [Except.ok.injEq, Prod.mk.injEq, Cursor.mk.injEq, and_true, true_and]
    omega
  have s5 : next inp
        ⟨6 + rank_in inp, [2, 3, 4] ++ List.range' 5 (rank_in inp) ++ [5 + rank_in inp]⟩
      = Except.ok (slot inp (6 + rank_in inp),
          ⟨7 + rank_in inp, [2, 3, 4] ++ List.range' 5 (rank_in inp) ++ [5 + rank_in inp]
              ++ [6 + rank_in inp]⟩) := by
    rw [next_ok inp _ hlen (by show 6 + rank_in inp < inp.length; omega)]
    simp only [Except.ok.injEq, Prod.mk.injEq, Cursor.mk.injEq, and_true, true_and]
    omega
  have s6 : read_shape inp (rank_out inp)
        ⟨7 + rank_in inp, [2, 3, 4] ++ List.range' 5 (rank_in inp) ++ [5 + rank_in inp]
              ++ [6 + rank_in inp]⟩ []
      = Except.ok (words inp (7 + rank_in inp) (rank_out inp),
          ⟨7 + rank_in inp + rank_out inp, List.range' 2 (5 + rank_in inp + rank_out inp)⟩) := by
    rw [read_shape_ok inp hlen _ _ _ (by show 7 + rank_in inp + rank_out inp ≤ inp.length; omega)]
    simp only [List.nil_append, words, Except.ok.injEq, Prod.mk.injEq, Cursor.mk.injEq, true_and]
    rw [← range_pieces]
    simp only [List.append_assoc]
  unfold decode
  rw [load_ok inp 2 (by omega)]
  simp only [s1, ha, s2]
  rw [show as_uint64 (slot inp 4) = rank_in inp from rfl]
  simp only [s3, s4, hb, s5]
  rw [show as_uint64 (slot inp (6 + rank_in inp)) = rank_out inp from rfl]
  simp only [s6]

theorem object_value_bytes (v : Nat) : object_value (object_bytes v) = v % 2 ^ 64 := by
  simp [object_value, object_bytes, POINTER_SIZE, List.range, List.range.loop]
  omega

theorem bit_cast_eq (junk src : Nat) : bit_cast junk src = src % 2 ^ 64 := by
  have h : memcpy (object_bytes junk) (object_bytes src) POINTER_SIZE = object_bytes src := by
    have hs : (object_bytes src).length = POINTER_SIZE := by simp [object_bytes]
    have hj : (object_bytes junk).length = POINTER_SIZE := by simp [object_bytes]
    rw [memcpy, List.take_of_length_le (Nat.le_of_eq hs), List.drop_of_length_le (Nat.le_of_eq hj),
      List.append_nil]
  rw [bit_cast, h, object_value_bytes]

/-- C6. Registrations returns a dictionary with the single key cpu_pycall,
bound to a capsule named xla._CUSTOM_CALL_TARGET that wraps the address of
pycall with its bits unchanged by bit_cast; the result is the same whatever
the uninitialised contents of the temporary of bit_cast, so every call
returns a dictionary with that key and that address. -/
theorem Registrations_single_entry (junk pycall_addr : Nat) (h : pycall_addr < 2 ^ 64) :
    Registrations junk pycall_addr
        = [("cpu_pycall", { pointer := pycall_addr, name := "xla._CUSTOM_CALL_TARGET" })]
      ∧ (Registrations junk pycall_addr).length = 1
      ∧ (∀ junk2 : Nat, Registrations junk2 pycall_addr = Registrations junk pycall_addr) := by
  have e : ∀ j : Nat, Registrations j pycall_addr
      = [("cpu_pycall", { pointer := pycall_addr, name := "xla._CUSTOM_CALL_TARGET" })] := by
    intro j
    have hm : pycall_addr % 2 ^ 64 = pycall_addr := Nat.mod_eq_of_lt h
    simp only [Registrations, setitem, EncapsulateFunction, bit_cast_eq, hm]
    rfl
  refine ⟨e junk, by rw [e junk]; rfl, fun j => by rw [e j, e junk]⟩

theorem Registrations_single_entry_witness :
    Registrations 12345 140737488355328
        = [("cpu_pycall", { pointer := 140737488355328, name := "xla._CUSTOM_CALL_TARGET" })]
      ∧ (Registrations 12345 140737488355328).length = 1
      ∧ (∀ junk2 : Nat, Registrations junk2 140737488355328 = Registrations 12345 140737488355328) :=
  Registrations_single_entry 12345 140737488355328 (by decide)

theorem tcdict_at_iff (key : Nat) (dt : DType) :
    tcdict_at key = Except.ok dt ↔
      (key, dt) ∈ [(3, DType.float32), (7, DType.float64), (67, DType.complex64),
        (71, DType.complex128)] := by
  by_cases h3 : key = 3
  · subst h3; cases dt <;> simp [tcdict_at, tcdict, List.lookup]
  by_cases h7 : key = 7
  · subst h7; cases dt <;> simp [tcdict_at, tcdict, List.lookup]
  by_cases h67 : key = 67
  · subst h67; cases dt <;> simp [tcdict_at, tcdict, List.lookup]
  by_cases h71 : key = 71
  · subst h71; cases dt <;> simp [tcdict_at, tcdict, List.lookup]
  have b3 : (key == 3) = false := by simpa using h3
  have b7 : (key == 7) = false := by simpa using h7
  have b67 : (key == 67) = false := by simpa using h67
  have b71 : (key == 71) = false := by simpa using h71
  simp [tcdict_at, tcdict, List.lookup, b3, b7, b67, b71, h3, h7, h67, h71]

theorem tcdict_at_error (key : Nat) (e : Err) (h : tcdict_at key = Except.error e) :
    e = Err.out_of_range := by
  unfold tcdict_at at h
  split at h
  · cases h
  · cases h; rfl

theorem to_uint8_cast (v : Int) : ((to_uint8 v : Nat) : Int) = v % 256 :=
  Int.toNat_of_nonneg (Int.emod_nonneg v (by decide))

theorem lookup_dtype_iff (s : Slot) (dt : DType) :
    lookup_dtype s = Except.ok dt ↔
      (as_int64 s % 256, dt) ∈ ([(3, DType.float32), (7, DType.float64), (67, DType.complex64),
        (71, DType.complex128)] : List (Int × DType)) := by
  rw [lookup_dtype, tcdict_at_iff, ← to_uint8_cast]
  simp only [List.mem_cons, Prod.mk.injEq, List.mem_singleton, List.not_mem_nil, or_false]
  constructor
  · rintro (⟨h, rfl⟩ | ⟨h, rfl⟩ | ⟨h, rfl⟩ | ⟨h, rfl⟩) <;> simp [h]
  · rintro (⟨h, rfl⟩ | ⟨h, rfl⟩ | ⟨h, rfl⟩ | ⟨h, rfl⟩) <;> simp <;> omega

theorem known_code_iff (s : Slot) : known_code s ↔ ∃ dt, lookup_dtype s = Except.ok dt := by
  constructor
  · intro h
    simp only [known_code, List.mem_cons, List.mem_singleton, List.not_mem_nil, or_false] at h
    rcases h with h | h | h | h
    · exact ⟨DType.float32, (lookup_dtype_iff s _).2 (by simp [h])⟩
    · exact ⟨DType.float64, (lookup_dtype_iff s _).2 (by simp [h])⟩
    · exact ⟨DType.complex64, (lookup_dtype_iff s _).2 (by simp [h])⟩
    · exact ⟨DType.complex128, (lookup_dtype_iff s _).2 (by simp [h])⟩
  · rintro ⟨dt, h⟩
    have h2 := (lookup_dtype_iff s dt).1 h
    simp only [List.mem_cons, Prod.mk.injEq, List.mem_singleton, List.not_mem_nil, or_false] at h2
    simp only [known_code, List.mem_cons, List.mem_singleton, List.not_mem_nil, or_false]
    rcases h2 with ⟨h, _⟩ | ⟨h, _⟩ | ⟨h, _⟩ | ⟨h, _⟩ <;> simp [h]

theorem unknown_code_raises (s : Slot) (h : ¬ known_code s) :
    lookup_dtype s = Except.error Err.out_of_range := by
  cases hl : lookup_dtype s with
  | ok dt => exact absurd ((known_code_iff s).2 ⟨dt, hl⟩) h
  | error e => rw [tcdict_at_error _ e hl]

theorem next_slot (inp : List Slot) (c : Cursor) (h : c.idx < inp.length) :
    next inp c = Except.ok
      (slot inp c.idx, { idx := (c.idx + 1) % SIZE_RANGE, reads := c.reads ++ [c.idx] }) := by
  simp [next, load_ok inp c.idx h]

theorem decode_bad_in (inp : List Slot) (e : Err) (h : 4 ≤ inp.length)
    (hx : lookup_dtype (slot inp 3) = Except.error e) : decode inp = Except.error e := by
  have s1 := next_slot inp { idx := 3, reads := [2] } (by show 3 < inp.length; omega)
  unfold decode
  rw [load_ok inp 2 (by omega)]
  simp only [s1, hx]

theorem decode_bad_out (inp : List Slot) (a : DType) (e : Err) (hlen : inp.length < SIZE_RANGE)
    (h : 6 + rank_in inp ≤ inp.length)
    (ha : lookup_dtype (slot inp 3) = Except.ok a)
    (hx : lookup_dtype (slot inp (5 + rank_in inp)) = Except.error e) :
    decode inp = Except.error e := by
  have s1 : next inp { idx := 3, reads := [2] }
      = Except.ok (slot inp 3, { idx := 4, reads := [2, 3] }) :=
    next_ok inp _ hlen (by show 3 < inp.length; omega)
  have s2 : next inp { idx := 4, reads := [2, 3] }
      = Except.ok (slot inp 4, { idx := 5, reads := [2, 3, 4] }) :=
    next_ok inp _ hlen (by show 4 < inp.length; omega)
  have s3 : read_shape inp (rank_in inp) { idx := 5, reads := [2, 3, 4] } []
      = Except.ok (words inp 5 (rank_in inp),
          ⟨5 + rank_in inp, [2, 3, 4] ++ List.range' 5 (rank_in inp)⟩) := by
    rw [read_shape_ok inp hlen _ _ _ (by show 5 + rank_in inp ≤ inp.length; omega)]
    simp [words]
  have s4 := next_slot inp ⟨5 + rank_in inp, [2, 3, 4] ++ List.range' 5 (rank_in inp)⟩
    (by show 5 + rank_in inp < inp.length; omega)
  unfold decode
  rw [load_ok inp 2 (by omega)]
  simp only [s1, ha, s2]
  rw [show as_uint64 (slot inp 4) = rank_in inp from rfl]
  simp only [s3, s4, hx]

theorem decode_ok_length (inp : List Slot) (d : Decoded) (h : decode inp = Except.ok d) :
    3 ≤ inp.length := by
  by_contra hc
  have hb := load_bad inp 2 (by omega)
  unfold decode at h
  rw [hb] at h
  cases h

theorem nonzero_prod_pos (dims : List Int) (h : ∀ x ∈ dims, 0 ≤ x) : 1 ≤ nonzero_prod dims := by
  induction dims with
  | nil => simp [nonzero_prod]
  | cons x rest ih =>
    have hx : 0 ≤ x := h x (List.mem_cons_self x rest)
    have hr := ih (fun y hy => h y (List.mem_cons_of_mem x hy))
    unfold nonzero_prod
    split
    · exact hr
    · rename_i hne
      have hx1 : 1 ≤ x := by omega
      nlinarith

theorem check_dims_iff (dims : List Int) :
    ∀ nbytes : Int, 0 < nbytes → nbytes ≤ NPY_MAX_INTP →
      (check_dims dims nbytes = true
        ↔ (∀ x ∈ dims, 0 ≤ x) ∧ nbytes * nonzero_prod dims ≤ NPY_MAX_INTP) := by
  induction dims with
  | nil =>
    intro nbytes _ hm
    simp [check_dims, nonzero_prod, hm]
  | cons x rest ih =>
    intro nbytes hn hm
    unfold check_dims nonzero_prod
    by_cases h0 : x = 0
    · subst h0
      simp only [if_true, List.mem_cons, forall_eq_or_imp, le_refl, true_and]
      exact ih nbytes hn hm
    · simp only [h0, if_false, List.mem_cons, forall_eq_or_imp]
      by_cases hneg : x < 0
      · simp only [hneg, if_true, Bool.false_eq_true, false_iff, not_and]
        intro hx
        omega
      · simp only [hneg, if_false]
        have hx1 : 1 ≤ x := by omega
        have hpos : 0 < nbytes * x := by positivity
        by_cases hbig : NPY_MAX_INTP < nbytes * x
        · simp only [hbig, if_true, Bool.false_eq_true, false_iff, not_and, not_le]
          intro hall
          have hp := nonzero_prod_pos rest hall.2
          have : nbytes * x ≤ nbytes * (x * nonzero_prod rest) := by
            rw [← mul_assoc]
            exact le_mul_of_one_le_right (le_of_lt hpos) hp
          omega
        · simp only [hbig, if_false]
          rw [ih (nbytes * x) hpos (by omega), mul_assoc]
          constructor
          · rintro ⟨h1, h2⟩
            exact ⟨⟨by omega, h1⟩, h2⟩
          · rintro ⟨⟨_, h1⟩, h2⟩
            exact ⟨h1, h2⟩

theorem to_ssize_t_small (n : Nat) (h : n < 2 ^ 63) : to_ssize_t n = (n : Int) := by
  have h1 : n % SIZE_RANGE = n := Nat.mod_eq_of_lt (by unfold SIZE_RANGE; omega)
  simp only [to_ssize_t, h1, h, if_true]

theorem map_to_ssize_t_small (shape : List Nat) (h : ∀ x ∈ shape, x < 2 ^ 63) :
    shape.map to_ssize_t = shape.map Int.ofNat := by
  apply List.map_congr_left
  intro x hx
  exact to_ssize_t_small x (h x hx)

theorem itemsize_bounds (dt : DType) :
    0 < (itemsize dt : Int) ∧ (itemsize dt : Int) ≤ NPY_MAX_INTP := by
  cases dt <;> simp [itemsize, NPY_MAX_INTP]

theorem py_array_delivers (maxdims : Nat) (fresh : Option Nat) (dt : DType) (shape : List Nat)
    (ptr : Nat) (hp : ptr ≠ 0) (hr : shape.length ≤ maxdims) (hm : maxdims < 2 ^ 32)
    (hd : ∀ x ∈ shape, x < 2 ^ 63)
    (hs : (itemsize dt : Int) * nonzero_prod (shape.map Int.ofNat) ≤ NPY_MAX_INTP) :
    py_array maxdims fresh dt shape ptr Handle.object
      = some { dtype := dt, shape := shape.map Int.ofNat, data := ptr, writeable := true,
               owndata := false } := by
  have hnd : shape.length % 2 ^ 32 = shape.length := Nat.mod_eq_of_lt (by omega)
  have htake : (shape.map to_ssize_t).take (shape.length % 2 ^ 32) = shape.map Int.ofNat := by
    rw [hnd, map_to_ssize_t_small shape hd]
    exact List.take_of_length_le (by simp)
  have hchk : check_dims (shape.map Int.ofNat) (itemsize dt) = true := by
    rw [check_dims_iff _ _ (itemsize_bounds dt).1 (itemsize_bounds dt).2]
    refine ⟨?_, hs⟩
    intro x hx
    simp only [List.mem_map] at hx
    obtain ⟨n, _, rfl⟩ := hx
    exact Int.ofNat_nonneg n
  unfold py_array
  simp only [htake, hchk, hp, ne_eq, not_false_eq_true, and_true, if_true]
  rw [hnd, if_pos hr]

theorem py_array_some (maxdims : Nat) (fresh : Option Nat) (dt : DType) (shape : List Nat)
    (ptr : Nat) (base : Handle) (a : PyArray)
    (h : py_array maxdims fresh dt shape ptr base = some a) :
    a.dtype = dt ∧ a.shape = (shape.map to_ssize_t).take (shape.length % 2 ^ 32)
      ∧ shape.length % 2 ^ 32 ≤ maxdims
      ∧ check_dims ((shape.map to_ssize_t).take (shape.length % 2 ^ 32)) (itemsize dt) = true := by
  unfold py_array at h
  simp only at h
  split at h
  · rename_i hacc
    refine ⟨?_, ?_, hacc.1, hacc.2⟩
    · split at h
      · split at h
        · cases h; rfl
        · cases h; rfl
        · split at h
          · cases h; rfl
          · cases h
      · split at h
        · cases h; rfl
        · cases h
    · split at h
      · split at h
        · cases h; rfl
        · cases h; rfl
        · split at h
          · cases h; rfl
          · cases h
      · split at h
        · cases h; rfl
        · cases h
  · cases h

theorem py_array_refused (maxdims : Nat) (fresh : Option Nat) (dt : DType) (shape : List Nat)
    (ptr : Nat) (base : Handle)
    (h : maxdims < shape.length % 2 ^ 32
      ∨ check_dims ((shape.map to_ssize_t).take (shape.length % 2 ^ 32)) (itemsize dt) = false) :
    py_array maxdims fresh dt shape ptr base = none := by
  cases hp : py_array maxdims fresh dt shape ptr base with
  | none => rfl
  | some a =>
    have hs := py_array_some maxdims fresh dt shape ptr base a hp
    rcases h with h | h
    · omega
    · rw [hs.2.2.2] at h
      cases h

theorem py_array_null_pointer (maxdims : Nat) (fresh : Option Nat) (dt : DType)
    (shape : List Nat) (base : Handle) (a : PyArray)
    (h : py_array maxdims fresh dt shape 0 base = some a) :
    fresh = some a.data ∧ a.writeable = true ∧ a.owndata = true := by
  unfold py_array at h
  simp only [ne_eq, not_true_eq_false, if_false] at h
  split at h
  · cases fresh with
    | none => cases h
    | some x =>
      cases h
      exact ⟨rfl, rfl, rfl⟩
  · cases h

theorem pycall_of_decode_ok {Mem : Type} (np : NumPy) (func : Call → Mem → Mem) (mem : Mem)
    (out : Nat) (inp : List Slot) (d : Decoded) (a b : PyArray)
    (h : decode inp = Except.ok d)
    (ha : py_array np.MAXDIMS (np.alloc 0) d.dtin d.shape_in (slot inp 0).ptr Handle.object
      = some a)
    (hb : py_array np.MAXDIMS (np.alloc 1) d.dtout d.shape_out out Handle.object = some b) :
    pycall np func mem out inp
      = Run.returned (d.reads ++ [0])
          [⟨d.state, "_func",
            [PyArg.array (set_writeable a false), PyArg.array b, PyArg.object d.state]⟩]
          (func ⟨d.state, "_func",
            [PyArg.array (set_writeable a false), PyArg.array b, PyArg.object d.state]⟩ mem) := by
  have h0 := load_ok inp 0 (by have := decode_ok_length inp d h; omega)
  simp only [pycall, h, h0, ha, hb]

theorem pycall_array_failed {Mem : Type} (np : NumPy) (func : Call → Mem → Mem) (mem : Mem)
    (out : Nat) (inp : List Slot) (d : Decoded) (h : decode inp = Except.ok d)
    (hf : py_array np.MAXDIMS (np.alloc 0) d.dtin d.shape_in (slot inp 0).ptr Handle.object = none
      ∨ py_array np.MAXDIMS (np.alloc 1) d.dtout d.shape_out out Handle.object = none) :
    pycall np func mem out inp = Run.array_failed (d.reads ++ [0]) mem := by
  have h0 := load_ok inp 0 (by have := decode_ok_length inp d h; omega)
  cases ha : py_array np.MAXDIMS (np.alloc 0) d.dtin d.shape_in (slot inp 0).ptr Handle.object with
  | none => simp only [pycall, h, h0, ha]
  | some a =>
    rcases hf with hf | hf
    · rw [ha] at hf
      cases hf
    · simp only [pycall, h, h0, ha, hf]

theorem pycall_after_decode {Mem : Type} (np : NumPy) (func : Call → Mem → Mem) (mem : Mem)
    (out : Nat) (inp : List Slot) (d : Decoded) (h : decode inp = Except.ok d) :
    pycall np func mem out inp = Run.array_failed (d.reads ++ [0]) mem
      ∨ ∃ (calls : List Call) (mem1 : Mem),
          pycall np func mem out inp = Run.returned (d.reads ++ [0]) calls mem1 := by
  cases ha : py_array np.MAXDIMS (np.alloc 0) d.dtin d.shape_in (slot inp 0).ptr Handle.object with
  | none => exact Or.inl (pycall_array_failed np func mem out inp d h (Or.inl ha))
  | some a =>
    cases hb : py_array np.MAXDIMS (np.alloc 1) d.dtout d.shape_out out Handle.object with
    | none => exact Or.inl (pycall_array_failed np func mem out inp d h (Or.inr hb))
    | some b => exact Or.inr ⟨_, _, pycall_of_decode_ok np func mem out inp d a b h ha hb⟩

theorem pycall_of_decode_error {Mem : Type} (np : NumPy) (func : Call → Mem → Mem) (mem : Mem)
    (out : Nat) (inp : List Slot) (e : Err) (h : decode inp = Except.error e) :
    pycall np func mem out inp = Run.raised e mem := by
  simp only [pycall, h]

theorem next_idx (inp : List Slot) (c c1 : Cursor) (s : Slot) (hlen : inp.length < SIZE_RANGE)
    (h : next inp c = Except.ok (s, c1)) : c1.idx = c.idx + 1 := by
  by_cases hc : c.idx < inp.length
  · rw [next_ok inp c hlen hc] at h
    cases h
    rfl
  · rw [next_bad inp c (by omega)] at h
    cases h

theorem read_shape_idx (inp : List Slot) (hlen : inp.length < SIZE_RANGE) :
    ∀ (n : Nat) (c c1 : Cursor) (acc sh : List Nat),
      read_shape inp n c acc = Except.ok (sh, c1) → c1.idx = c.idx + n := by
  intro n
  induction n with
  | zero =>
    intro c c1 acc sh h
    simp only [read_shape, Except.ok.injEq, Prod.mk.injEq] at h
    rw [← h.2]; rfl
  | succ n ih =>
    intro c c1 acc sh h
    rw [read_shape] at h
    cases hn : next inp c with
    | error e => rw [hn] at h; cases h
    | ok p =>
      obtain ⟨s, c2⟩ := p
      rw [hn] at h
      have h1 := next_idx inp c c2 s hlen hn
      have h2 := ih c2 c1 _ sh h
      omega

theorem agree_get (inp1 inp2 : List Slot) (h : agree_off_opid inp1 inp2) (i : Nat) (hi : i ≠ 1) :
    inp1[i]? = inp2[i]? := by
  by_cases hl : i < inp1.length
  · exact h.2 i hl hi
  · rw [List.getElem?_eq_none (by omega), List.getElem?_eq_none (by have := h.1; omega)]

theorem load_congr (inp1 inp2 : List Slot) (h : agree_off_opid inp1 inp2) (i : Nat) (hi : i ≠ 1) :
    load inp1 i = load inp2 i := by
  simp only [load, agree_get inp1 inp2 h i hi]

theorem next_congr (inp1 inp2 : List Slot) (h : agree_off_opid inp1 inp2) (c : Cursor)
    (hi : c.idx ≠ 1) : next inp1 c = next inp2 c := by
  simp only [next, load_congr inp1 inp2 h c.idx hi]

theorem read_shape_congr (inp1 inp2 : List Slot) (h : agree_off_opid inp1 inp2)
    (hlen : inp2.length < SIZE_RANGE) :
    ∀ (n : Nat) (c : Cursor) (acc : List Nat), 2 ≤ c.idx →
      read_shape inp1 n c acc = read_shape inp2 n c acc := by
  intro n
  induction n with
  | zero => intro c acc _; rfl
  | succ n ih =>
    intro c acc hc
    rw [read_shape, read_shape, next_congr inp1 inp2 h c (by omega)]
    cases hn : next inp2 c with
    | error e => rfl
    | ok p =>
      obtain ⟨s, c2⟩ := p
      have h1 := next_idx inp2 c c2 s hlen hn
      exact ih c2 _ (by omega)

theorem decode_congr (inp1 inp2 : List Slot) (h : agree_off_opid inp1 inp2)
    (hlen : inp2.length < SIZE_RANGE) : decode inp1 = decode inp2 := by
  unfold decode
  rw [load_congr inp1 inp2 h 2 (by decide)]
  cases load inp2 2 with
  | error e => rfl
  | ok s2 =>
  simp only
  rw [next_congr inp1 inp2 h _ (by decide)]
  cases hn1 : next inp2 { idx := 3, reads := [2] } with
  | error e => rfl
  | ok p1 =>
  obtain ⟨t1, c1⟩ := p1
  have i1 : c1.idx = 4 := next_idx inp2 _ c1 t1 hlen hn1
  simp only
  cases lookup_dtype t1 with
  | error e => rfl
  | ok dtin =>
  simp only
  rw [next_congr inp1 inp2 h c1 (by omega)]
  cases hn2 : next inp2 c1 with
  | error e => rfl
  | ok p2 =>
  obtain ⟨r1, c2⟩ := p2
  have i2 : c2.idx = 5 := by rw [next_idx inp2 c1 c2 r1 hlen hn2, i1]
  simp only
  rw [read_shape_congr inp1 inp2 h hlen _ c2 [] (by omega)]
  cases hn3 : read_shape inp2 (as_uint64 r1) c2 [] with
  | error e => rfl
  | ok p3 =>
  obtain ⟨shape_in, c3⟩ := p3
  have i3 : 5 ≤ c3.idx := by
    rw [read_shape_idx inp2 hlen _ c2 c3 [] shape_in hn3, i2]; omega
  simp only
  rw [next_congr inp1 inp2 h c3 (by omega)]
  cases hn4 : next inp2 c3 with
  | error e => rfl
  | ok p4 =>
  obtain ⟨t2, c4⟩ := p4
  have i4 : 6 ≤ c4.idx := by rw [next_idx inp2 c3 c4 t2 hlen hn4]; omega
  simp only
  cases lookup_dtype t2 with
  | error e => rfl
  | ok dtout =>
  simp only
  rw [next_congr inp1 inp2 h c4 (by omega)]
  cases hn5 : next inp2 c4 with
  | error e => rfl
  | ok p5 =>
  obtain ⟨r2, c5⟩ := p5
  have i5 : 7 ≤ c5.idx := by rw [next_idx inp2 c4 c5 r2 hlen hn5]; omega
  simp only
  rw [read_shape_congr inp1 inp2 h hlen _ c5 [] (by omega)]

theorem words_length (inp : List Slot) (i n : Nat) (h : i + n ≤ inp.length) :
    (words inp i n).length = n := by
  simp only [words, List.length_map, List.length_take, List.length_drop]
  omega

theorem words_get (inp : List Slot) (i n k : Nat) (h : i + n ≤ inp.length) (hk : k < n) :
    (words inp i n)[k]? = some (as_uint64 (slot inp (i + k))) := by
  have h1 : i + k < inp.length := by omega
  simp [words, List.getElem?_map, List.getElem?_take, hk, List.getElem?_drop, slot, List.getD,
    List.getElem?_eq_getElem h1]

/-- C1. The fixed decoding order of pycall. For a pointer array that has all
the slots its ranks announce and whose two type codes are known, the decode
succeeds and its results come from these slots: the input dtype from slot 3,
ndim_in from slot 4, shape_in from slots 5 .. 4+ndim_in, the output dtype from
slot 5+ndim_in, ndim_out from slot 6+ndim_in, shape_out from slots
7+ndim_in .. 6+ndim_in+ndim_out; shape_in has ndim_in entries and shape_out
has ndim_out entries, in slot order. -/
theorem decode_fixed_order (inp : List Slot) (hwf : well_formed inp)
    (hin : known_code (slot inp 3)) (hout : known_code (slot inp (5 + rank_in inp))) :
    ∃ d : Decoded, decode inp = Except.ok d
      ∧ lookup_dtype (slot inp 3) = Except.ok d.dtin
      ∧ d.ndim_in = as_uint64 (slot inp 4)
      ∧ d.shape_in.length = d.ndim_in
      ∧ (∀ k, k < d.ndim_in → d.shape_in[k]? = some (as_uint64 (slot inp (5 + k))))
      ∧ lookup_dtype (slot inp (5 + d.ndim_in)) = Except.ok d.dtout
      ∧ d.ndim_out = as_uint64 (slot inp (6 + d.ndim_in))
      ∧ d.shape_out.length = d.ndim_out
      ∧ (∀ k, k < d.ndim_out →
          d.shape_out[k]? = some (as_uint64 (slot inp (7 + d.ndim_in + k)))) := by
  obtain ⟨a, ha⟩ := (known_code_iff _).1 hin
  obtain ⟨b, hb⟩ := (known_code_iff _).1 hout
  have hw := hwf.2
  refine ⟨_, decode_ok inp a b hwf ha hb, ha, rfl, ?_, ?_, hb, rfl, ?_, ?_⟩
  · exact words_length inp 5 _ (by omega)
  · intro k hk
    exact words_get inp 5 _ k (by omega) hk
  · exact words_length inp _ _ (by omega)
  · intro k hk
    exact words_get inp _ _ k (by omega) hk

theorem decode_fixed_order_witness :
    ∃ d : Decoded, decode sample_in = Except.ok d
      ∧ lookup_dtype (slot sample_in 3) = Except.ok d.dtin
      ∧ d.ndim_in = as_uint64 (slot sample_in 4)
      ∧ d.shape_in.length = d.ndim_in
      ∧ (∀ k, k < d.ndim_in → d.shape_in[k]? = some (as_uint64 (slot sample_in (5 + k))))
      ∧ lookup_dtype (slot sample_in (5 + d.ndim_in)) = Except.ok d.dtout
      ∧ d.ndim_out = as_uint64 (slot sample_in (6 + d.ndim_in))
      ∧ d.shape_out.length = d.ndim_out
      ∧ (∀ k, k < d.ndim_out →
          d.shape_out[k]? = some (as_uint64 (slot sample_in (7 + d.ndim_in + k)))) :=
  decode_fixed_order sample_in (by decide) (by decide) (by decide)

/-- C3. The table tcdict has exactly four entries, 3 for float, 7 for double,
67 for complex of float and 71 for complex of double, and no other key is
found in it. The input dtype is the entry of the code at slot 3 and the output
dtype the entry, in the same table, of the code at slot 5+ndim_in, each
whatever the other is; every pair of an input and an output dtype occurs. -/
theorem tcdict_four_entries (inp : List Slot) (a b : DType) (hwf : well_formed inp)
    (ha : tcdict_at (to_uint8 (as_int64 (slot inp 3))) = Except.ok a)
    (hb : tcdict_at (to_uint8 (as_int64 (slot inp (5 + rank_in inp)))) = Except.ok b) :
    tcdict = [(3, DType.float32), (7, DType.float64), (67, DType.complex64),
        (71, DType.complex128)]
      ∧ tcdict.length = 4
      ∧ (∀ (key : Nat) (dt : DType), tcdict_at key = Except.ok dt ↔
          (key = 3 ∧ dt = DType.float32) ∨ (key = 7 ∧ dt = DType.float64)
            ∨ (key = 67 ∧ dt = DType.complex64) ∨ (key = 71 ∧ dt = DType.complex128))
      ∧ (∀ key : Nat, key ∉ [3, 7, 67, 71] → tcdict_at key = Except.error Err.out_of_range)
      ∧ (∃ d : Decoded, decode inp = Except.ok d ∧ d.dtin = a ∧ d.dtout = b)
      ∧ (∀ x y : DType, ∃ d : Decoded,
          decode (scalar_input (type_code x) (type_code y)) = Except.ok d
            ∧ d.dtin = x ∧ d.dtout = y) := by
  refine ⟨rfl, rfl, ?_, ?_, ⟨_, decode_ok inp a b hwf ha hb, rfl, rfl⟩, ?_⟩
  · intro key dt
    rw [tcdict_at_iff]
    simp only [List.mem_cons, Prod.mk.injEq, List.mem_singleton, List.not_mem_nil, or_false]
  · intro key hk
    cases hl : tcdict_at key with
    | ok dt =>
      have h2 := (tcdict_at_iff key dt).1 hl
      simp only [List.mem_cons, Prod.mk.injEq, List.mem_singleton, List.not_mem_nil, or_false]
        at h2 hk
      omega
    | error e => rw [tcdict_at_error key e hl]
  · intro x y
    cases x <;> cases y <;> exact ⟨_, rfl, rfl, rfl⟩

theorem tcdict_four_entries_witness :
    tcdict = [(3, DType.float32), (7, DType.float64), (67, DType.complex64),
        (71, DType.complex128)]
      ∧ tcdict.length = 4
      ∧ (∀ (key : Nat) (dt : DType), tcdict_at key = Except.ok dt ↔
          (key = 3 ∧ dt = DType.float32) ∨ (key = 7 ∧ dt = DType.float64)
            ∨ (key = 67 ∧ dt = DType.complex64) ∨ (key = 71 ∧ dt = DType.complex128))
      ∧ (∀ key : Nat, key ∉ [3, 7, 67, 71] → tcdict_at key = Except.error Err.out_of_range)
      ∧ (∃ d : Decoded, decode sample_in = Except.ok d ∧ d.dtin = DType.float32
          ∧ d.dtout = DType.complex128)
      ∧ (∀ x y : DType, ∃ d : Decoded,
          decode (scalar_input (type_code x) (type_code y)) = Except.ok d
            ∧ d.dtin = x ∧ d.dtout = y) :=
  tcdict_four_entries sample_in DType.float32 DType.complex128 (by decide) (by decide)
    (by decide)

theorem pycall_known_runs {Mem : Type} (np : NumPy) (func : Call → Mem → Mem) (mem : Mem)
    (out : Nat) (inp : List Slot) (hwf : well_formed inp) (hin : known_code (slot inp 3))
    (hout : known_code (slot inp (5 + rank_in inp))) :
    ∃ d : Decoded, decode inp = Except.ok d
      ∧ d.reads = List.range' 2 (5 + rank_in inp + rank_out inp)
      ∧ d.shape_in = words inp 5 (rank_in inp)
      ∧ d.shape_out = words inp (7 + rank_in inp) (rank_out inp)
      ∧ (pycall np func mem out inp = Run.array_failed (d.reads ++ [0]) mem
          ∨ ∃ (calls : List Call) (mem1 : Mem),
              pycall np func mem out inp = Run.returned (d.reads ++ [0]) calls mem1) := by
  obtain ⟨a, ha⟩ := (known_code_iff _).1 hin
  obtain ⟨b, hb⟩ := (known_code_iff _).1 hout
  have hd := decode_ok inp a b hwf ha hb
  exact ⟨_, hd, rfl, rfl, rfl, pycall_after_decode np func mem out inp _ hd⟩

theorem pycall_unknown_raises {Mem : Type} (np : NumPy) (func : Call → Mem → Mem) (mem : Mem)
    (out : Nat) (inp : List Slot) (hwf : well_formed inp)
    (h : ¬ (known_code (slot inp 3) ∧ known_code (slot inp (5 + rank_in inp)))) :
    decode inp = Except.error Err.out_of_range
      ∧ pycall np func mem out inp = Run.raised Err.out_of_range mem := by
  have hw := hwf.2
  have hd : decode inp = Except.error Err.out_of_range := by
    by_cases hin : known_code (slot inp 3)
    · obtain ⟨a, ha⟩ := (known_code_iff _).1 hin
      have hout : ¬ known_code (slot inp (5 + rank_in inp)) := fun hc => h ⟨hin, hc⟩
      exact decode_bad_out inp a _ hwf.1 (by omega) ha (unknown_code_raises _ hout)
    · exact decode_bad_in inp _ (by omega) (unknown_code_raises _ hin)
  exact ⟨hd, pycall_of_decode_error np func mem out inp _ hd⟩

/-- C4, as the code has it. The type code is reduced to its low 8 bits before
the lookup, so a code outside 3, 7, 67, 71 is not always fatal. For a pointer
array that has all the slots its ranks announce, pycall fails with the
std::out_of_range of the table lookup, without calling back and leaving the
memory as it was, exactly when the input code of slot 3 or the output code of
slot 5+ndim_in, reduced modulo 256, is not one of 3, 7, 67, 71; and the decode
stage succeeds exactly when both reduced codes are among them. -/
theorem unknown_reduced_code_fatal {Mem : Type} (np : NumPy) (func : Call → Mem → Mem)
    (mem : Mem) (out : Nat) (inp : List Slot) (hwf : well_formed inp) :
    (pycall np func mem out inp = Run.raised Err.out_of_range mem
        ↔ ¬ (known_code (slot inp 3) ∧ known_code (slot inp (5 + rank_in inp))))
      ∧ ((∃ d : Decoded, decode inp = Except.ok d)
        ↔ (known_code (slot inp 3) ∧ known_code (slot inp (5 + rank_in inp)))) := by
  by_cases hk : known_code (slot inp 3) ∧ known_code (slot inp (5 + rank_in inp))
  · obtain ⟨d, hd, -, -, -, hp⟩ := pycall_known_runs np func mem out inp hwf hk.1 hk.2
    constructor
    · constructor
      · intro hr
        rcases hp with hp | ⟨calls, mem1, hp⟩
        · rw [hp] at hr
          cases hr
        · rw [hp] at hr
          cases hr
      · intro hn
        exact absurd hk hn
    · exact ⟨fun _ => hk, fun _ => ⟨d, hd⟩⟩
  · obtain ⟨hd, hp⟩ := pycall_unknown_raises np func mem out inp hwf hk
    constructor
    · exact ⟨fun _ => hk, fun _ => hp⟩
    · constructor
      · rintro ⟨d, hd2⟩
        rw [hd] at hd2
        cases hd2
      · intro hn
        exact absurd hn hk

theorem unknown_reduced_code_fatal_witness :
    (pycall sample_numpy sample_func sample_mem 12288 (scalar_input 4 7)
          = Run.raised Err.out_of_range sample_mem
        ↔ ¬ (known_code (slot (scalar_input 4 7) 3)
              ∧ known_code (slot (scalar_input 4 7) (5 + rank_in (scalar_input 4 7)))))
      ∧ ((∃ d : Decoded, decode (scalar_input 4 7) = Except.ok d)
        ↔ (known_code (slot (scalar_input 4 7) 3)
              ∧ known_code (slot (scalar_input 4 7) (5 + rank_in (scalar_input 4 7))))) :=
  unknown_reduced_code_fatal sample_numpy sample_func sample_mem 12288 (scalar_input 4 7)
    (by decide)

/-- C4, counterexample to the claim as stated. The word 259 at slot 3 is a
64-bit type code that is not one of 3, 7, 67, 71, yet pycall does not fail: it
returns after calling back with an input array of float. -/
theorem unknown_code_not_fatal :
    as_int64 (slot (scalar_input 259 7) 3) = 259
      ∧ (259 : Int) ∉ ([3, 7, 67, 71] : List Int)
      ∧ pycall sample_numpy (fun _ (m : Unit) => m) () 12288 (scalar_input 259 7)
          = Run.returned [2, 3, 4, 5, 6, 0]
              [⟨8192, "_func",
                [PyArg.array ⟨DType.float32, [], 4096, false, false⟩,
                 PyArg.array ⟨DType.float64, [], 12288, true, false⟩,
                 PyArg.object 8192]⟩] () := by
  refine ⟨by decide, by decide, by decide⟩

/-- C7. The operator id is not used. Two pointer arrays of the same length
that hold the same slot at every position other than 1 give the same decode
(the same dtypes, ranks and shapes, or the same failure) and the same run of
pycall: the same failure, or the same call with the same arguments and the
same effect on memory. -/
theorem opid_not_used {Mem : Type} (np : NumPy) (func : Call → Mem → Mem) (mem : Mem)
    (out : Nat) (inp1 inp2 : List Slot) (hlen : inp1.length < SIZE_RANGE)
    (hagree : agree_off_opid inp1 inp2) :
    decode inp1 = decode inp2
      ∧ pycall np func mem out inp1 = pycall np func mem out inp2 := by
  have hlen2 : inp2.length < SIZE_RANGE := by rw [← hagree.1]; exact hlen
  have hd := decode_congr inp1 inp2 hagree hlen2
  refine ⟨hd, ?_⟩
  simp only [pycall, hd, load_congr inp1 inp2 hagree 0 (by decide)]

theorem opid_not_used_witness :
    decode sample_in = decode sample_in_other_opid
      ∧ pycall sample_numpy sample_func sample_mem 12288 sample_in
          = pycall sample_numpy sample_func sample_mem 12288 sample_in_other_opid :=
  opid_not_used sample_numpy sample_func sample_mem 12288 sample_in sample_in_other_opid
    (by decide) (by decide)

theorem as_int64_slot_of_int64 (p : Nat) (v : Int) (hlo : -2 ^ 63 ≤ v) (hhi : v < 2 ^ 63) :
    as_int64 (slot_of_int64 p v) = v := by
  simp only [as_int64, slot_of_int64, SIZE_RANGE]
  split <;> omega

/-- C8. Type codes are reduced to their low 8 bits before the lookup. For
every signed 64-bit value v stored as a type code, the lookup succeeds exactly
when v mod 256 is one of 3, 7, 67, 71, and it then gives the dtype that the
table holds for v mod 256. So the codes 259 and -253, which are not keys of the
table, are accepted and decoded as float. -/
theorem type_code_low_byte (p : Nat) (v : Int) (hlo : -2 ^ 63 ≤ v) (hhi : v < 2 ^ 63) :
    as_int64 (slot_of_int64 p v) = v
      ∧ ((∃ dt, lookup_dtype (slot_of_int64 p v) = Except.ok dt)
          ↔ v % 256 ∈ ([3, 7, 67, 71] : List Int))
      ∧ (∀ dt, lookup_dtype (slot_of_int64 p v) = Except.ok dt
          ↔ tcdict_at (v % 256).toNat = Except.ok dt)
      ∧ lookup_dtype (slot_of_int64 80 259) = Except.ok DType.float32
      ∧ lookup_dtype (slot_of_int64 80 (-253)) = Except.ok DType.float32
      ∧ (∃ d : Decoded, decode (scalar_input 259 7) = Except.ok d ∧ d.dtin = DType.float32)
      ∧ (∃ d : Decoded, decode (scalar_input (2 ^ 64 - 253) 7) = Except.ok d
          ∧ as_int64 (slot (scalar_input (2 ^ 64 - 253) 7) 3) = -253
          ∧ d.dtin = DType.float32) := by
  have hv := as_int64_slot_of_int64 p v hlo hhi
  refine ⟨hv, ?_, ?_, by decide, by decide, ⟨_, rfl, rfl⟩, ⟨_, rfl, by decide, rfl⟩⟩
  · have hk := known_code_iff (slot_of_int64 p v)
    simp only [known_code, hv] at hk
    exact hk.symm
  · intro dt
    rw [lookup_dtype, hv, to_uint8]

theorem type_code_low_byte_witness :
    as_int64 (slot_of_int64 80 (-253)) = -253
      ∧ ((∃ dt, lookup_dtype (slot_of_int64 80 (-253)) = Except.ok dt)
          ↔ (-253 : Int) % 256 ∈ ([3, 7, 67, 71] : List Int))
      ∧ (∀ dt, lookup_dtype (slot_of_int64 80 (-253)) = Except.ok dt
          ↔ tcdict_at ((-253 : Int) % 256).toNat = Except.ok dt)
      ∧ lookup_dtype (slot_of_int64 80 259) = Except.ok DType.float32
      ∧ lookup_dtype (slot_of_int64 80 (-253)) = Except.ok DType.float32
      ∧ (∃ d : Decoded, decode (scalar_input 259 7) = Except.ok d ∧ d.dtin = DType.float32)
      ∧ (∃ d : Decoded, decode (scalar_input (2 ^ 64 - 253) 7) = Except.ok d
          ∧ as_int64 (slot (scalar_input (2 ^ 64 - 253) 7) 3) = -253
          ∧ d.dtin = DType.float32) :=
  type_code_low_byte 80 (-253) (by decide) (by decide)

/-- C9. The slots read depend on the ranks found. For a pointer array with
known type codes and at least 7+ndim_in+ndim_out slots, the decode succeeds and
pycall ends, by returning or by an exception of a py::array constructor,
having indexed the array at 2, 3, ..., 6+ndim_in+ndim_out and then at 0: every
position read is 0 or lies between 2 and 6+ndim_in+ndim_out, and is inside the
array. It returns whenever py::array delivers both arrays. When both ranks are
0 the positions read are exactly 2, 3, 4, 5, 6, 0, both shapes are empty and
the output type code is the one of slot 5. -/
theorem reads_within_announced_slots {Mem : Type} (np : NumPy) (func : Call → Mem → Mem)
    (mem : Mem) (out : Nat) (inp : List Slot) (hwf : well_formed inp)
    (hin : known_code (slot inp 3)) (hout : known_code (slot inp (5 + rank_in inp))) :
    ∃ (d : Decoded) (reads : List Nat),
      decode inp = Except.ok d
      ∧ (pycall np func mem out inp = Run.array_failed reads mem
          ∨ ∃ (calls : List Call) (mem1 : Mem),
              pycall np func mem out inp = Run.returned reads calls mem1)
      ∧ (∀ a b : PyArray,
          py_array np.MAXDIMS (np.alloc 0) d.dtin d.shape_in (slot inp 0).ptr Handle.object
              = some a →
          py_array np.MAXDIMS (np.alloc 1) d.dtout d.shape_out out Handle.object = some b →
          ∃ (calls : List Call) (mem1 : Mem),
            pycall np func mem out inp = Run.returned reads calls mem1)
      ∧ reads = List.range' 2 (5 + rank_in inp + rank_out inp) ++ [0]
      ∧ (∀ i, i ∈ reads ↔ (i = 0 ∨ (2 ≤ i ∧ i ≤ 6 + rank_in inp + rank_out inp)))
      ∧ (∀ i, i ∈ reads → i < inp.length)
      ∧ (rank_in inp = 0 → rank_out inp = 0 →
          reads = [2, 3, 4, 5, 6, 0] ∧ d.shape_in = [] ∧ d.shape_out = []
            ∧ lookup_dtype (slot inp 5) = Except.ok d.dtout) := by
  obtain ⟨a, ha⟩ := (known_code_iff _).1 hin
  obtain ⟨b, hb⟩ := (known_code_iff _).1 hout
  have hd := decode_ok inp a b hwf ha hb
  have hw := hwf.2
  have hmem : ∀ i, i ∈ List.range' 2 (5 + rank_in inp + rank_out inp) ++ [0]
      ↔ (i = 0 ∨ (2 ≤ i ∧ i ≤ 6 + rank_in inp + rank_out inp)) := by
    intro i
    simp only [List.mem_append, List.mem_range'_1, List.mem_singleton]
    omega
  refine ⟨_, _, hd, pycall_after_decode np func mem out inp _ hd, ?_, rfl, hmem, ?_, ?_⟩
  · intro x y hx hy
    exact ⟨_, _, pycall_of_decode_ok np func mem out inp _ x y hd hx hy⟩
  · intro i hi
    have := (hmem i).1 hi
    omega
  · intro h0 h1
    refine ⟨?_, ?_, ?_, ?_⟩
    · rw [h0, h1]; rfl
    · show words inp 5 (rank_in inp) = []
      rw [h0]; simp [words]
    · show words inp (7 + rank_in inp) (rank_out inp) = []
      rw [h1]; simp [words]
    · rw [h0] at hb
      exact hb

theorem reads_within_announced_slots_witness :
    ∃ (d : Decoded) (reads : List Nat),
      decode sample_scalar = Except.ok d
      ∧ (pycall sample_numpy sample_func sample_mem 12288 sample_scalar
            = Run.array_failed reads sample_mem
          ∨ ∃ (calls : List Call) (mem1 : Nat → Nat),
              pycall sample_numpy sample_func sample_mem 12288 sample_scalar
                = Run.returned reads calls mem1)
      ∧ (∀ a b : PyArray,
          py_array sample_numpy.MAXDIMS (sample_numpy.alloc 0) d.dtin d.shape_in
              (slot sample_scalar 0).ptr Handle.object = some a →
          py_array sample_numpy.MAXDIMS (sample_numpy.alloc 1) d.dtout d.shape_out 12288
              Handle.object = some b →
          ∃ (calls : List Call) (mem1 : Nat → Nat),
            pycall sample_numpy sample_func sample_mem 12288 sample_scalar
              = Run.returned reads calls mem1)
      ∧ reads = List.range' 2 (5 + rank_in sample_scalar + rank_out sample_scalar) ++ [0]
      ∧ (∀ i, i ∈ reads
          ↔ (i = 0 ∨ (2 ≤ i ∧ i ≤ 6 + rank_in sample_scalar + rank_out sample_scalar)))
      ∧ (∀ i, i ∈ reads → i < sample_scalar.length)
      ∧ (rank_in sample_scalar = 0 → rank_out sample_scalar = 0 →
          reads = [2, 3, 4, 5, 6, 0] ∧ d.shape_in = [] ∧ d.shape_out = []
            ∧ lookup_dtype (slot sample_scalar 5) = Except.ok d.dtout) :=
  reads_within_announced_slots sample_numpy sample_func sample_mem 12288 sample_scalar
    (by decide) (by decide) (by decide)

end detail_pymodule_jax
